import Mathlib

/- Formal model of the video-converter progress pipeline, settings resolution,
   command builder and HTTP/worker boundary, translated from the Python sources
   (api/unified_video_converter.py, api/simple_video_converter.py,
   api/video_converter.py), together with verified properties. -/

/- Model of Python str.split(sep) for a single-character separator. -/
def splitCh (sep : Char) : List Char → List (List Char)
  | [] => [[]]
  | c :: cs =>
    if c = sep then [] :: splitCh sep cs
    else
      match splitCh sep cs with
      | [] => [[c]]
      | p :: ps => (c :: p) :: ps

/- Numeric value of a list of decimal digit characters. -/
def digitsVal (l : List Char) : Nat :=
  l.foldl (fun a c => a * 10 + (c.toNat - 48)) 0

/- Model of Python float() on the unsigned digits/dot fragment of its grammar
   (the only fragment the converter pipeline can feed it): "d+", "d+.d*" and
   ".d+" parse to the exact rational; anything else fails (ValueError). -/
def parseDecUnsigned (l : List Char) : Option ℚ :=
  match splitCh '.' l with
  | [ip] =>
    if ip ≠ [] ∧ ip.all Char.isDigit then some ((digitsVal ip : ℚ)) else none
  | [ip, fp] =>
    if (ip ≠ [] ∨ fp ≠ []) ∧ ip.all Char.isDigit ∧ fp.all Char.isDigit then
      some ((digitsVal ip : ℚ) + (digitsVal fp : ℚ) / (10 : ℚ) ^ fp.length)
    else none
  | _ => none

/- Model of Python float() including an optional leading sign. -/
def parseSigned (l : List Char) : Option ℚ :=
  if l.head? = some '-' then (parseDecUnsigned l.tail).map (fun q => -q)
  else if l.head? = some '+' then parseDecUnsigned l.tail
  else parseDecUnsigned l

/- The hours term: float(time_parts[0]) if len(time_parts) > 2 else 0. -/
def hoursOpt (parts : List (List Char)) : Option ℚ :=
  if parts.length > 2 then parseSigned (parts.getD 0 []) else some 0

/- The minutes term: float(time_parts[1]) if len(time_parts) > 1 else 0. -/
def minutesOpt (parts : List (List Char)) : Option ℚ :=
  if parts.length > 1 then parseSigned (parts.getD 1 []) else some 0

/- The seconds term: float(time_parts[2] if len(time_parts) > 2 else time_parts[-1]). -/
def secondsOpt (parts : List (List Char)) : Option ℚ :=
  parseSigned (if parts.length > 2 then parts.getD 2 [] else (parts.getLast?).getD [])

/- Time-to-seconds computation shared by all pass monitors
   (unified_video_converter.py lines 191-195 and the identical copies):
   parts = time.split(':');
   current_time = hours*3600 + minutes*60 + seconds.
   A float() failure anywhere yields none (the ValueError branch). -/
def timeToSecondsL (time : List Char) : Option ℚ :=
  match hoursOpt (splitCh ':' time), minutesOpt (splitCh ':' time),
        secondsOpt (splitCh ':' time) with
  | some h, some m, some s => some (h * 3600 + m * 60 + s)
  | _, _, _ => none

def timeToSeconds (time : String) : Option ℚ :=
  timeToSecondsL time.data

/- Single-pass progress write (unified lines 190-198):
   progress = min(100, (current_time / duration) * 100), fallback 0. -/
def singlePassProgress (duration : ℚ) (time : String) : ℚ :=
  match timeToSeconds time with
  | some t => min 100 (t / duration * 100)
  | none => 0

/- First-pass progress write in two-pass mode (unified lines 230-238):
   progress = min(50, (current_time / duration) * 50), fallback 0. -/
def firstPassProgress (duration : ℚ) (time : String) : ℚ :=
  match timeToSeconds time with
  | some t => min 50 (t / duration * 50)
  | none => 0

/- Second-pass progress write in two-pass mode (unified lines 271-279):
   progress = 50 + min(50, (current_time / duration) * 50), fallback 50. -/
def secondPassProgress (duration : ℚ) (time : String) : ℚ :=
  match timeToSeconds time with
  | some t => 50 + min 50 (t / duration * 50)
  | none => 50

/- The generic progress-remapping formula lo + min(hi-lo, fraction*(hi-lo))
   instantiated by the three monitors at [0,100], [0,50] and [50,100]. -/
def rangeProgress (lo hi duration t : ℚ) : ℚ :=
  lo + min (hi - lo) (t / duration * (hi - lo))

lemma parseDecUnsigned_nonneg (l : List Char) (q : ℚ)
    (h : parseDecUnsigned l = some q) : 0 ≤ q := by
  unfold parseDecUnsigned at h
  rcases hs : splitCh '.' l with _ | ⟨ip, rest⟩
  · rw [hs] at h; cases h
  · rcases rest with _ | ⟨fp, rest2⟩
    · rw [hs] at h
      dsimp at h
      split at h
      · cases h; positivity
      · cases h
    · rcases rest2 with _ | _
      · rw [hs] at h
        dsimp at h
        split at h
        · cases h; positivity
        · cases h
      · rw [hs] at h; cases h

lemma parseSigned_nonneg (l : List Char) (q : ℚ)
    (hno : '-' ∉ l) (h : parseSigned l = some q) : 0 ≤ q := by
  unfold parseSigned at h
  by_cases hc : l.head? = some '-'
  · exfalso
    cases l with
    | nil => simp at hc
    | cons x xs =>
      simp at hc
      exact hno (by simp [hc])
  · rw [if_neg hc] at h
    by_cases hp : l.head? = some '+'
    · rw [if_pos hp] at h
      exact parseDecUnsigned_nonneg _ _ h
    · rw [if_neg hp] at h
      exact parseDecUnsigned_nonneg _ _ h

lemma splitCh_ne_nil (sep : Char) (l : List Char) : splitCh sep l ≠ [] := by
  cases l with
  | nil => simp [splitCh]
  | cons c cs =>
    unfold splitCh
    split
    · simp
    · split <;> simp

lemma listGetD_mem {α : Type} (l : List α) (i : Nat) (d : α) (h : i < l.length) :
    l.getD i d ∈ l := by
  induction l generalizing i with
  | nil => simp at h
  | cons x xs ih =>
    cases i with
    | zero => simp [List.getD]
    | succ n =>
      have : xs.getD n d ∈ xs := ih n (by simpa using h)
      simpa [List.getD] using Or.inr this

lemma listGetLast?_mem {α : Type} (l : List α) (a : α) (h : l.getLast? = some a) :
    a ∈ l := by
  induction l with
  | nil => cases h
  | cons x xs ih =>
    cases xs with
    | nil =>
      simp [List.getLast?] at h
      simp [h]
    | cons y ys =>
      rw [List.getLast?_cons_cons] at h
      exact List.mem_cons_of_mem _ (ih h)

lemma splitCh_mem_subset (sep : Char) (l : List Char) (part : List Char)
    (hp : part ∈ splitCh sep l) (c : Char) (hc : c ∈ part) : c ∈ l := by
  induction l generalizing part with
  | nil =>
    simp [splitCh] at hp
    subst hp
    cases hc
  | cons x xs ih =>
    unfold splitCh at hp
    by_cases hx : x = sep
    · rw [if_pos hx] at hp
      rcases List.mem_cons.mp hp with h1 | h2
      · subst h1; cases hc
      · exact List.mem_cons_of_mem _ (ih part h2 hc)
    · rw [if_neg hx] at hp
      rcases hsp : splitCh sep xs with _ | ⟨p, ps⟩
      · exact absurd hsp (splitCh_ne_nil sep xs)
      · rw [hsp] at hp
        rcases List.mem_cons.mp hp with h1 | h2
        · subst h1
          rcases List.mem_cons.mp hc with h3 | h4
          · subst h3; exact List.mem_cons_self _ _
          · exact List.mem_cons_of_mem _
              (ih p (by rw [hsp]; exact List.mem_cons_self _ _) h4)
        · exact List.mem_cons_of_mem _
            (ih part (by rw [hsp]; exact List.mem_cons_of_mem _ h2) hc)

lemma hoursOpt_nonneg (l : List Char) (q : ℚ) (hno : '-' ∉ l)
    (h : hoursOpt (splitCh ':' l) = some q) : 0 ≤ q := by
  unfold hoursOpt at h
  split at h
  · refine parseSigned_nonneg _ _ (fun hneg => hno ?_) h
    exact splitCh_mem_subset ':' l _ (listGetD_mem _ 0 [] (by omega)) '-' hneg
  · cases h; norm_num

lemma minutesOpt_nonneg (l : List Char) (q : ℚ) (hno : '-' ∉ l)
    (h : minutesOpt (splitCh ':' l) = some q) : 0 ≤ q := by
  unfold minutesOpt at h
  split at h
  · refine parseSigned_nonneg _ _ (fun hneg => hno ?_) h
    exact splitCh_mem_subset ':' l _ (listGetD_mem _ 1 [] (by omega)) '-' hneg
  · cases h; norm_num

lemma secondsOpt_nonneg (l : List Char) (q : ℚ) (hno : '-' ∉ l)
    (h : secondsOpt (splitCh ':' l) = some q) : 0 ≤ q := by
  unfold secondsOpt at h
  refine parseSigned_nonneg _ _ (fun hneg => hno ?_) h
  split at hneg
  · exact splitCh_mem_subset ':' l _ (listGetD_mem _ 2 [] (by omega)) '-' hneg
  · rcases hgl : (splitCh ':' l).getLast? with _ | p
    · exact absurd (by simpa using hgl) (splitCh_ne_nil ':' l)
    · rw [hgl] at hneg
      exact splitCh_mem_subset ':' l p (listGetLast?_mem _ p hgl) '-' hneg

lemma timeToSecondsL_nonneg (l : List Char) (t : ℚ)
    (hno : '-' ∉ l) (h : timeToSecondsL l = some t) : 0 ≤ t := by
  unfold timeToSecondsL at h
  rcases hH : hoursOpt (splitCh ':' l) with _ | hq
  · rw [hH] at h; cases h
  rcases hM : minutesOpt (splitCh ':' l) with _ | mq
  · rw [hH, hM] at h; cases h
  rcases hS : secondsOpt (splitCh ':' l) with _ | sq
  · rw [hH, hM, hS] at h; cases h
  rw [hH, hM, hS] at h
  cases h
  have h1 := hoursOpt_nonneg l hq hno hH
  have h2 := minutesOpt_nonneg l mq hno hM
  have h3 := secondsOpt_nonneg l sq hno hS
  positivity

/-- Claim C2: for two-component time strings the model is claimed to read the
first component as minutes and the second as seconds. The code instead reads
the SECOND component for both minutes and seconds (time_parts[1] and
time_parts[-1] coincide for a two-element split), ignoring the first
component: "02:30" yields 30*60 + 30 = 1830 seconds where the claim demands
2*60 + 30 = 150. The parse-failure fallbacks do behave as claimed. -/
theorem spec_C2_codebug :
    timeToSeconds "02:30" = some 1830 ∧
    ((2 : ℚ) * 60 + 30 ≠ 1830) ∧
    timeToSeconds "ab:cd" = none ∧
    singlePassProgress 300 "ab:cd" = 0 ∧
    firstPassProgress 300 "ab:cd" = 0 ∧
    secondPassProgress 300 "ab:cd" = 50 := by
  have heval : timeToSeconds "ab:cd" = none := by
    simp +decide [timeToSeconds, timeToSecondsL, hoursOpt, minutesOpt, secondsOpt,
      parseSigned, parseDecUnsigned, splitCh, digitsVal]
  refine ⟨?_, by norm_num, heval, ?_, ?_, ?_⟩
  · simp +decide [timeToSeconds, timeToSecondsL, hoursOpt, minutesOpt, secondsOpt,
      parseSigned, parseDecUnsigned, splitCh, digitsVal]
    norm_num
  · simp [singlePassProgress, heval]
  · simp [firstPassProgress, heval]
  · simp [secondPassProgress, heval]

lemma splitCh_of_not_mem (sep : Char) (l : List Char)
    (h : ∀ c ∈ l, c ≠ sep) : splitCh sep l = [l] := by
  induction l with
  | nil => rfl
  | cons x xs ih =>
    have hx : x ≠ sep := h x (List.mem_cons_self _ _)
    have hxs : splitCh sep xs = [xs] := ih (fun c hc => h c (List.mem_cons_of_mem _ hc))
    unfold splitCh
    rw [if_neg hx, hxs]

lemma splitCh_append (sep : Char) (a rest : List Char)
    (h : ∀ c ∈ a, c ≠ sep) : splitCh sep (a ++ sep :: rest) = a :: splitCh sep rest := by
  induction a with
  | nil =>
    simp only [List.nil_append]
    simp [splitCh]
  | cons x xs ih =>
    have hx : x ≠ sep := h x (List.mem_cons_self _ _)
    have hxs := ih (fun c hc => h c (List.mem_cons_of_mem _ hc))
    simp only [List.cons_append]
    simp only [splitCh]
    rw [if_neg hx, hxs]

lemma digit_ne (c sep : Char) (hd : c.isDigit = true) (hsep : sep.isDigit = false) :
    c ≠ sep := by
  intro heq
  rw [heq] at hd
  rw [hd] at hsep
  cases hsep

lemma parseDecUnsigned_digits (l : List Char) (hne : l ≠ [])
    (hd : l.all Char.isDigit) : parseDecUnsigned l = some ((digitsVal l : ℚ)) := by
  have hdot : splitCh '.' l = [l] := by
    refine splitCh_of_not_mem '.' l (fun c hc => ?_)
    exact digit_ne c '.' (by simpa using (List.all_eq_true.mp hd c hc)) (by decide)
  unfold parseDecUnsigned
  rw [hdot]
  simp [hne, hd]

lemma parseSigned_digits (l : List Char) (hne : l ≠ [])
    (hd : l.all Char.isDigit) : parseSigned l = some ((digitsVal l : ℚ)) := by
  have hhead : ∀ c, l.head? = some c → c.isDigit = true := by
    intro c hc
    cases l with
    | nil => cases hc
    | cons x xs =>
      simp at hc
      subst hc
      simpa using (List.all_eq_true.mp hd x (List.mem_cons_self _ _))
  unfold parseSigned
  rw [if_neg, if_neg]
  · exact parseDecUnsigned_digits l hne hd
  · intro hplus
    exact absurd rfl (digit_ne '+' '+' (hhead '+' hplus) (by decide))
  · intro hminus
    exact absurd rfl (digit_ne '-' '-' (hhead '-' hminus) (by decide))

lemma timeToSecondsL_three (hh mm ss : List Char)
    (h1 : hh ≠ []) (h2 : mm ≠ []) (h3 : ss ≠ [])
    (d1 : hh.all Char.isDigit) (d2 : mm.all Char.isDigit) (d3 : ss.all Char.isDigit) :
    timeToSecondsL (hh ++ ':' :: (mm ++ ':' :: ss)) =
      some ((digitsVal hh : ℚ) * 3600 + (digitsVal mm : ℚ) * 60 + (digitsVal ss : ℚ)) := by
  have hnc : ∀ (l : List Char), l.all Char.isDigit → ∀ c ∈ l, c ≠ ':' := by
    intro l hl c hc
    exact digit_ne c ':' (by simpa using (List.all_eq_true.mp hl c hc)) (by decide)
  have hsplit : splitCh ':' (hh ++ ':' :: (mm ++ ':' :: ss)) = [hh, mm, ss] := by
    rw [splitCh_append ':' hh _ (hnc hh d1), splitCh_append ':' mm _ (hnc mm d2),
      splitCh_of_not_mem ':' ss (hnc ss d3)]
  unfold timeToSecondsL
  rw [hsplit]
  unfold hoursOpt minutesOpt secondsOpt
  norm_num [List.getD]
  rw [parseSigned_digits hh h1 d1, parseSigned_digits mm h2 d2,
    parseSigned_digits ss h3 d3]

/-- Claim C6: for every valid three-component time string HH:MM:SS (each
component a nonempty run of digits) and every duration D greater than 0, the
computed time is h*3600 + m*60 + s and the completion fraction before
clamping is that value divided by D; in particular "00:01:30" with D = 180
gives 90 seconds, hence fraction 90/180 = 1/2. -/
theorem spec_C6 (hh mm ss : List Char) (D : ℚ) (_hD : 0 < D)
    (h1 : hh ≠ []) (h2 : mm ≠ []) (h3 : ss ≠ [])
    (d1 : hh.all Char.isDigit) (d2 : mm.all Char.isDigit) (d3 : ss.all Char.isDigit) :
    timeToSeconds (String.mk (hh ++ ':' :: (mm ++ ':' :: ss))) =
      some ((digitsVal hh : ℚ) * 3600 + (digitsVal mm : ℚ) * 60 + (digitsVal ss : ℚ)) ∧
    singlePassProgress D (String.mk (hh ++ ':' :: (mm ++ ':' :: ss))) =
      min 100 (((digitsVal hh : ℚ) * 3600 + (digitsVal mm : ℚ) * 60 + (digitsVal ss : ℚ)) / D * 100) ∧
    timeToSeconds "00:01:30" = some 90 ∧ ((90 : ℚ) / 180 = 1 / 2) := by
  have hts : timeToSeconds (String.mk (hh ++ ':' :: (mm ++ ':' :: ss))) =
      some ((digitsVal hh : ℚ) * 3600 + (digitsVal mm : ℚ) * 60 + (digitsVal ss : ℚ)) :=
    timeToSecondsL_three hh mm ss h1 h2 h3 d1 d2 d3
  refine ⟨hts, ?_, ?_, by norm_num⟩
  · unfold singlePassProgress
    rw [hts]
  · have : timeToSeconds "00:01:30" =
        some ((digitsVal ['0','0'] : ℚ) * 3600 + (digitsVal ['0','1'] : ℚ) * 60 + (digitsVal ['3','0'] : ℚ)) := by
      exact timeToSecondsL_three ['0','0'] ['0','1'] ['3','0']
        (by decide) (by decide) (by decide) (by decide) (by decide) (by decide)
    rw [this]
    have e1 : digitsVal ['0','0'] = 0 := by decide
    have e2 : digitsVal ['0','1'] = 1 := by decide
    have e3 : digitsVal ['3','0'] = 30 := by decide
    rw [e1, e2, e3]
    norm_num

/-- Witness for C6 at hh = "00", mm = "01", ss = "30", D = 180. -/
theorem spec_C6_witness :
    timeToSeconds (String.mk (['0','0'] ++ ':' :: (['0','1'] ++ ':' :: ['3','0']))) =
      some ((digitsVal ['0','0'] : ℚ) * 3600 + (digitsVal ['0','1'] : ℚ) * 60 + (digitsVal ['3','0'] : ℚ)) ∧
    singlePassProgress 180 (String.mk (['0','0'] ++ ':' :: (['0','1'] ++ ':' :: ['3','0']))) =
      min 100 (((digitsVal ['0','0'] : ℚ) * 3600 + (digitsVal ['0','1'] : ℚ) * 60 + (digitsVal ['3','0'] : ℚ)) / 180 * 100) ∧
    timeToSeconds "00:01:30" = some 90 ∧ ((90 : ℚ) / 180 = 1 / 2) :=
  spec_C6 ['0','0'] ['0','1'] ['3','0'] 180 (by norm_num)
    (by decide) (by decide) (by decide) (by decide) (by decide) (by decide)

lemma rangeProgress_mono (lo hi D t1 t2 : ℚ) (hD : 0 < D) (hlh : lo ≤ hi)
    (ht : t1 ≤ t2) : rangeProgress lo hi D t1 ≤ rangeProgress lo hi D t2 := by
  unfold rangeProgress
  have hph : (0 : ℚ) ≤ hi - lo := sub_nonneg.mpr hlh
  have hdiv : t1 / D ≤ t2 / D := by
    apply div_le_div_of_nonneg_right ht hD.le
  exact add_le_add_left (min_le_min le_rfl (mul_le_mul_of_nonneg_right hdiv hph)) lo

lemma firstPassProgress_eq (D t : ℚ) (time : String)
    (h : timeToSeconds time = some t) :
    firstPassProgress D time = rangeProgress 0 50 D t := by
  unfold firstPassProgress rangeProgress
  rw [h]
  norm_num

lemma secondPassProgress_eq (D t : ℚ) (time : String)
    (h : timeToSeconds time = some t) :
    secondPassProgress D time = rangeProgress 50 100 D t := by
  unfold secondPassProgress rangeProgress
  rw [h]
  norm_num

lemma singlePassProgress_eq (D t : ℚ) (time : String)
    (h : timeToSeconds time = some t) :
    singlePassProgress D time = rangeProgress 0 100 D t := by
  unfold singlePassProgress rangeProgress
  rw [h]
  norm_num

/-- Claim C9: within a single pass with fixed duration D > 0 and fixed range
[lo, hi], the written progress lo + min(hi-lo, (t/D)*(hi-lo)) is monotone in
the reported encoder time, and accordingly each of the three concrete pass
monitors (first pass [0,50], second pass [50,100], single pass [0,100])
writes non-decreasing progress for non-decreasing parsed times. -/
theorem spec_C9 (lo hi D t1 t2 : ℚ) (time1 time2 : String)
    (hD : 0 < D) (hlh : lo ≤ hi)
    (h1 : timeToSeconds time1 = some t1) (h2 : timeToSeconds time2 = some t2)
    (ht : t1 ≤ t2) :
    rangeProgress lo hi D t1 ≤ rangeProgress lo hi D t2 ∧
    firstPassProgress D time1 ≤ firstPassProgress D time2 ∧
    secondPassProgress D time1 ≤ secondPassProgress D time2 ∧
    singlePassProgress D time1 ≤ singlePassProgress D time2 := by
  refine ⟨rangeProgress_mono lo hi D t1 t2 hD hlh ht, ?_, ?_, ?_⟩
  · rw [firstPassProgress_eq D t1 time1 h1, firstPassProgress_eq D t2 time2 h2]
    exact rangeProgress_mono 0 50 D t1 t2 hD (by norm_num) ht
  · rw [secondPassProgress_eq D t1 time1 h1, secondPassProgress_eq D t2 time2 h2]
    exact rangeProgress_mono 50 100 D t1 t2 hD (by norm_num) ht
  · rw [singlePassProgress_eq D t1 time1 h1, singlePassProgress_eq D t2 time2 h2]
    exact rangeProgress_mono 0 100 D t1 t2 hD (by norm_num) ht

/-- Witness for C9 at lo = 0, hi = 100, D = 60, times 10s and 20s. -/
theorem spec_C9_witness :
    rangeProgress 0 100 60 10 ≤ rangeProgress 0 100 60 20 ∧
    firstPassProgress 60 "00:00:10" ≤ firstPassProgress 60 "00:00:20" ∧
    secondPassProgress 60 "00:00:10" ≤ secondPassProgress 60 "00:00:20" ∧
    singlePassProgress 60 "00:00:10" ≤ singlePassProgress 60 "00:00:20" := by
  have e1 : timeToSeconds "00:00:10" = some 10 := by
    have := timeToSecondsL_three ['0','0'] ['0','0'] ['1','0']
      (by decide) (by decide) (by decide) (by decide) (by decide) (by decide)
    rw [show timeToSeconds "00:00:10" =
      timeToSecondsL (['0','0'] ++ ':' :: (['0','0'] ++ ':' :: ['1','0'])) from rfl, this]
    have e1 : digitsVal ['0','0'] = 0 := by decide
    have e2 : digitsVal ['1','0'] = 10 := by decide
    rw [e1, e2]
    norm_num
  have e2 : timeToSeconds "00:00:20" = some 20 := by
    have := timeToSecondsL_three ['0','0'] ['0','0'] ['2','0']
      (by decide) (by decide) (by decide) (by decide) (by decide) (by decide)
    rw [show timeToSeconds "00:00:20" =
      timeToSecondsL (['0','0'] ++ ':' :: (['0','0'] ++ ':' :: ['2','0'])) from rfl, this]
    have e1 : digitsVal ['0','0'] = 0 := by decide
    have e2 : digitsVal ['2','0'] = 20 := by decide
    rw [e1, e2]
    norm_num
  exact spec_C9 0 100 60 10 20 "00:00:10" "00:00:20" (by norm_num) (by norm_num)
    e1 e2 (by norm_num)

/- Greedy matcher for exactly n digit characters. -/
def matchDigitsN (n : Nat) (l : List Char) : Option (List Char × List Char) :=
  if (l.take n).length = n ∧ (l.take n).all Char.isDigit then
    some (l.take n, l.drop n)
  else none

/- Matcher for the regex tail ":MM:SS(.ff)?" after the hours digits, returning
   the whole matched group. -/
def matchTimeTail (hh r1 : List Char) : Option (List Char) :=
  if r1.head? = some ':' then
    match matchDigitsN 2 r1.tail with
    | some (m, r3) =>
      if r3.head? = some ':' then
        match matchDigitsN 2 r3.tail with
        | some (s, r5) =>
          if r5.head? = some '.' then
            match matchDigitsN 2 r5.tail with
            | some (f, _) => some (hh ++ ':' :: m ++ ':' :: s ++ '.' :: f)
            | none =>
              match matchDigitsN 1 r5.tail with
              | some (f, _) => some (hh ++ ':' :: m ++ ':' :: s ++ '.' :: f)
              | none => some (hh ++ ':' :: m ++ ':' :: s)
          else some (hh ++ ':' :: m ++ ':' :: s)
        | none => none
      else none
    | none => none
  else none

/- Matcher for the time pattern \d{1,2}:\d{2}:\d{2}(?:\.\d{1,2})? anchored at
   the current position: two hour digits are tried first, then one. -/
def matchTimeAt (l : List Char) : Option (List Char) :=
  match matchDigitsN 2 l with
  | some (hh, r1) =>
    match matchTimeTail hh r1 with
    | some g => some g
    | none =>
      match matchDigitsN 1 l with
      | some (h1, r1b) => matchTimeTail h1 r1b
      | none => none
  | none =>
    match matchDigitsN 1 l with
    | some (h1, r1b) => matchTimeTail h1 r1b
    | none => none

/- Matcher for the number pattern \d+\.?\d* anchored at the current position. -/
def matchNum (l : List Char) : Option (List Char) :=
  let d1 := l.takeWhile Char.isDigit
  let r := l.dropWhile Char.isDigit
  if d1 = [] then none
  else if r.head? = some '.' then some (d1 ++ '.' :: r.tail.takeWhile Char.isDigit)
  else some d1

/- Matcher for the speed pattern \d+\.?\d*x anchored at the current position. -/
def matchSpeed (l : List Char) : Option (List Char) :=
  let d1 := l.takeWhile Char.isDigit
  let r := l.dropWhile Char.isDigit
  if d1 = [] then none
  else if r.head? = some '.' then
    let d2 := r.tail.takeWhile Char.isDigit
    let r2 := r.tail.dropWhile Char.isDigit
    if r2.head? = some 'x' then some (d1 ++ '.' :: d2 ++ ['x']) else none
  else if r.head? = some 'x' then some (d1 ++ ['x'])
  else none

def bitsLit : List Char := ['b','i','t','s','/','s']

/- Matcher for the unit tail (?:k|M)?bits/s of the bitrate pattern. -/
def matchUnitTail (l : List Char) : Option (List Char) :=
  if l.head? = some 'k' then
    if bitsLit.isPrefixOf l.tail then some ('k' :: bitsLit) else none
  else if l.head? = some 'M' then
    if bitsLit.isPrefixOf l.tail then some ('M' :: bitsLit) else none
  else if bitsLit.isPrefixOf l then some bitsLit else none

/- Matcher for the bitrate pattern \d+\.?\d*(?:k|M)?bits/s anchored at the
   current position. -/
def matchBitrate (l : List Char) : Option (List Char) :=
  let d1 := l.takeWhile Char.isDigit
  let r := l.dropWhile Char.isDigit
  if d1 = [] then none
  else if r.head? = some '.' then
    let d2 := r.tail.takeWhile Char.isDigit
    let r2 := r.tail.dropWhile Char.isDigit
    match matchUnitTail r2 with
    | some u => some (d1 ++ '.' :: d2 ++ u)
    | none => none
  else
    match matchUnitTail r with
    | some u => some (d1 ++ u)
    | none => none

/- Model of re.search for a pattern of the form literal-prefix followed by a
   deterministic body: the leftmost occurrence of the literal whose body
   matches wins. -/
def searchLit (lit : List Char) (matcher : List Char → Option (List Char)) :
    List Char → Option (List Char)
  | [] => none
  | c :: cs =>
    if lit.isPrefixOf (c :: cs) then
      match matcher (List.drop lit.length (c :: cs)) with
      | some g => some g
      | none => searchLit lit matcher cs
    else searchLit lit matcher cs

/- Whether lit occurs as a contiguous substring. -/
def containsSub (lit : List Char) : List Char → Bool
  | [] => false
  | c :: cs => lit.isPrefixOf (c :: cs) || containsSub lit cs

def timeLit : List Char := ['t','i','m','e','=']

def fpsLit : List Char := ['f','p','s','=']

def speedLit : List Char := ['s','p','e','e','d','=']

def bitrateLit : List Char := ['b','i','t','r','a','t','e','=']

/- Snapshot produced by parse_ffmpeg_progress (simple lines 66-103, unified
   lines 69-102): defaults for absent fields, bitrate key omitted when the
   pattern is absent. -/
structure ProgressData where
  progress : ℚ
  time : String
  fps : ℚ
  speed : String
  eta : String
  bitrate : Option String
deriving DecidableEq

def timeField (l : List Char) : String :=
  match searchLit timeLit matchTimeAt l with
  | some g => String.mk g
  | none => "00:00:00"

def fpsField (l : List Char) : ℚ :=
  match searchLit fpsLit matchNum l with
  | some g => (parseSigned g).getD 0
  | none => 0

def speedField (l : List Char) : String :=
  match searchLit speedLit matchSpeed l with
  | some g => String.mk g
  | none => "0x"

def bitrateField (l : List Char) : Option String :=
  (searchLit bitrateLit matchBitrate l).map String.mk

def parseFfmpegProgress (line : String) : ProgressData :=
  { progress := 0
    time := timeField line.data
    fps := fpsField line.data
    speed := speedField line.data
    eta := "00:00:00"
    bitrate := bitrateField line.data }

lemma searchLit_none (lit : List Char) (matcher : List Char → Option (List Char))
    (l : List Char) (h : containsSub lit l = false) :
    searchLit lit matcher l = none := by
  induction l with
  | nil => rfl
  | cons c cs ih =>
    unfold containsSub at h
    simp only [Bool.or_eq_false_iff] at h
    unfold searchLit
    rw [h.1]
    simp only [Bool.false_eq_true, if_false]
    exact ih h.2

lemma searchLit_some (lit : List Char) (matcher : List Char → Option (List Char))
    (l g : List Char) (h : searchLit lit matcher l = some g) :
    ∃ start, matcher start = some g := by
  induction l with
  | nil => cases h
  | cons c cs ih =>
    unfold searchLit at h
    by_cases hpre : lit.isPrefixOf (c :: cs)
    · rw [if_pos hpre] at h
      rcases hm : matcher (List.drop lit.length (c :: cs)) with _ | g2
      · rw [hm] at h
        exact ih h
      · rw [hm] at h
        cases h
        exact ⟨_, hm⟩
    · rw [if_neg hpre] at h
      exact ih h

lemma matchDigitsN_digits (n : Nat) (l d r : List Char)
    (h : matchDigitsN n l = some (d, r)) : d.all Char.isDigit = true := by
  unfold matchDigitsN at h
  split at h
  · rename_i hcond
    cases h
    exact hcond.2
  · cases h

lemma allDigits_no_neg (d : List Char) (hd : d.all Char.isDigit = true) :
    '-' ∉ d := by
  intro hm
  have := List.all_eq_true.mp hd '-' hm
  exact absurd this (by decide)

lemma noNeg_append (xs ys : List Char) (hx : '-' ∉ xs) (hy : '-' ∉ ys) :
    '-' ∉ xs ++ ys := by
  intro h
  rcases List.mem_append.mp h with h | h
  · exact hx h
  · exact hy h

lemma noNeg_cons (c : Char) (xs : List Char) (hc : c ≠ '-') (hx : '-' ∉ xs) :
    '-' ∉ c :: xs := by
  intro h
  rcases List.mem_cons.mp h with h | h
  · exact hc h.symm
  · exact hx h

lemma matchTimeTail_no_neg (hh r1 g : List Char) (hhd : '-' ∉ hh)
    (h : matchTimeTail hh r1 = some g) : '-' ∉ g := by
  unfold matchTimeTail at h
  by_cases hc1 : r1.head? = some ':'
  case neg => rw [if_neg hc1] at h; cases h
  rw [if_pos hc1] at h
  rcases hm1 : matchDigitsN 2 r1.tail with _ | ⟨m, r3⟩
  · rw [hm1] at h; cases h
  rw [hm1] at h
  dsimp only at h
  have hmd : '-' ∉ m := allDigits_no_neg m (matchDigitsN_digits 2 r1.tail m r3 hm1)
  by_cases hc2 : r3.head? = some ':'
  case neg => rw [if_neg hc2] at h; cases h
  rw [if_pos hc2] at h
  rcases hm2 : matchDigitsN 2 r3.tail with _ | ⟨s, r5⟩
  · rw [hm2] at h; cases h
  rw [hm2] at h
  dsimp only at h
  have hsd : '-' ∉ s := allDigits_no_neg s (matchDigitsN_digits 2 r3.tail s r5 hm2)
  by_cases hc3 : r5.head? = some '.'
  case neg =>
    rw [if_neg hc3] at h
    cases h
    simp only [List.append_assoc, List.cons_append]
    exact noNeg_append hh _ hhd (noNeg_cons ':' _ (by decide)
      (noNeg_append m _ hmd (noNeg_cons ':' _ (by decide) hsd)))
  rw [if_pos hc3] at h
  rcases hm3 : matchDigitsN 2 r5.tail with _ | ⟨f, rf⟩
  · rw [hm3] at h
    dsimp only at h
    rcases hm4 : matchDigitsN 1 r5.tail with _ | ⟨f1, rf1⟩
    · rw [hm4] at h
      dsimp only at h
      cases h
      simp only [List.append_assoc, List.cons_append]
      exact noNeg_append hh _ hhd (noNeg_cons ':' _ (by decide)
        (noNeg_append m _ hmd (noNeg_cons ':' _ (by decide) hsd)))
    · rw [hm4] at h
      dsimp only at h
      cases h
      have hfd : '-' ∉ f1 := allDigits_no_neg f1 (matchDigitsN_digits 1 r5.tail f1 rf1 hm4)
      simp only [List.append_assoc, List.cons_append]
      exact noNeg_append hh _ hhd (noNeg_cons ':' _ (by decide)
        (noNeg_append m _ hmd (noNeg_cons ':' _ (by decide)
          (noNeg_append s _ hsd (noNeg_cons '.' _ (by decide) hfd)))))
  · rw [hm3] at h
    dsimp only at h
    cases h
    have hfd : '-' ∉ f := allDigits_no_neg f (matchDigitsN_digits 2 r5.tail f rf hm3)
    simp only [List.append_assoc, List.cons_append]
    exact noNeg_append hh _ hhd (noNeg_cons ':' _ (by decide)
      (noNeg_append m _ hmd (noNeg_cons ':' _ (by decide)
        (noNeg_append s _ hsd (noNeg_cons '.' _ (by decide) hfd)))))

lemma matchTimeAt_no_neg (l g : List Char) (h : matchTimeAt l = some g) :
    '-' ∉ g := by
  unfold matchTimeAt at h
  rcases hm1 : matchDigitsN 2 l with _ | ⟨hh, r1⟩
  · rw [hm1] at h
    dsimp only at h
    rcases hm2 : matchDigitsN 1 l with _ | ⟨h1, r1b⟩
    · rw [hm2] at h; cases h
    · rw [hm2] at h
      dsimp only at h
      exact matchTimeTail_no_neg h1 r1b g
        (allDigits_no_neg h1 (matchDigitsN_digits 1 l h1 r1b hm2)) h
  · rw [hm1] at h
    dsimp only at h
    rcases ht : matchTimeTail hh r1 with _ | g2
    · rw [ht] at h
      dsimp only at h
      rcases hm2 : matchDigitsN 1 l with _ | ⟨h1, r1b⟩
      · rw [hm2] at h; cases h
      · rw [hm2] at h
        dsimp only at h
        exact matchTimeTail_no_neg h1 r1b g
          (allDigits_no_neg h1 (matchDigitsN_digits 1 l h1 r1b hm2)) h
    · rw [ht] at h
      cases h
      exact matchTimeTail_no_neg hh r1 _
        (allDigits_no_neg hh (matchDigitsN_digits 2 l hh r1 hm1)) ht

lemma timeField_no_neg (l : List Char) : '-' ∉ (timeField l).data := by
  unfold timeField
  rcases hs : searchLit timeLit matchTimeAt l with _ | g
  · decide
  · obtain ⟨start, hstart⟩ := searchLit_some timeLit matchTimeAt l g hs
    exact matchTimeAt_no_neg start g hstart

lemma firstPassProgress_bounds (D : ℚ) (time : String) (hD : 0 < D)
    (hno : '-' ∉ time.data) :
    0 ≤ firstPassProgress D time ∧ firstPassProgress D time ≤ 50 := by
  unfold firstPassProgress
  rcases ht : timeToSeconds time with _ | t
  · norm_num
  · have htn : 0 ≤ t := timeToSecondsL_nonneg time.data t hno ht
    constructor
    · exact le_min (by norm_num) (mul_nonneg (div_nonneg htn hD.le) (by norm_num))
    · exact min_le_left _ _

lemma secondPassProgress_bounds (D : ℚ) (time : String) (hD : 0 < D)
    (hno : '-' ∉ time.data) :
    50 ≤ secondPassProgress D time ∧ secondPassProgress D time ≤ 100 := by
  unfold secondPassProgress
  rcases ht : timeToSeconds time with _ | t
  · norm_num
  · have htn : 0 ≤ t := timeToSecondsL_nonneg time.data t hno ht
    have hmin0 : (0 : ℚ) ≤ min 50 (t / D * 50) :=
      le_min (by norm_num) (mul_nonneg (div_nonneg htn hD.le) (by norm_num))
    have hmin50 := min_le_left (50 : ℚ) (t / D * 50)
    constructor
    · linarith
    · linarith

/-- Claim C4: in two-pass mode, for every duration D > 0 and every line
(whether its time token is parseable or not), the progress written during
pass 1 lies in [0, 50] and the progress written during pass 2 lies in
[50, 100], the parse-failure fallbacks (0 and 50) included. -/
theorem spec_C4 (D : ℚ) (hD : 0 < D) (line : String) :
    0 ≤ firstPassProgress D ((parseFfmpegProgress line).time) ∧
    firstPassProgress D ((parseFfmpegProgress line).time) ≤ 50 ∧
    50 ≤ secondPassProgress D ((parseFfmpegProgress line).time) ∧
    secondPassProgress D ((parseFfmpegProgress line).time) ≤ 100 := by
  have hno : '-' ∉ ((parseFfmpegProgress line).time).data := timeField_no_neg line.data
  obtain ⟨a, b⟩ := firstPassProgress_bounds D _ hD hno
  obtain ⟨c, d⟩ := secondPassProgress_bounds D _ hD hno
  exact ⟨a, b, c, d⟩

/-- Witness for C4 at D = 60 and the line "abc". -/
theorem spec_C4_witness :
    0 ≤ firstPassProgress 60 ((parseFfmpegProgress "abc").time) ∧
    firstPassProgress 60 ((parseFfmpegProgress "abc").time) ≤ 50 ∧
    50 ≤ secondPassProgress 60 ((parseFfmpegProgress "abc").time) ∧
    secondPassProgress 60 ((parseFfmpegProgress "abc").time) ≤ 100 :=
  spec_C4 60 (by norm_num) "abc"

def sampleLine : String :=
  "frame=100 fps=25.0 q=30.0 size=512kB time=00:00:04.00 bitrate=1000.0kbits/s speed=1.1x"

/-- Claim C7: on the sample diagnostic line the parser extracts time
"00:00:04.00", fps 25.0, speed "1.1x" and bitrate "1000.0kbits/s"; and on any
line containing none of the four tokens it returns the all-default snapshot
(time "00:00:00", fps 0, speed "0x", eta "00:00:00") with the bitrate field
omitted rather than defaulted. -/
theorem spec_C7 (line : String)
    (h1 : containsSub timeLit line.data = false)
    (h2 : containsSub fpsLit line.data = false)
    (h3 : containsSub speedLit line.data = false)
    (h4 : containsSub bitrateLit line.data = false) :
    parseFfmpegProgress line =
      { progress := 0, time := "00:00:00", fps := 0, speed := "0x",
        eta := "00:00:00", bitrate := none } ∧
    (parseFfmpegProgress sampleLine).time = "00:00:04.00" ∧
    (parseFfmpegProgress sampleLine).fps = 25 ∧
    (parseFfmpegProgress sampleLine).speed = "1.1x" ∧
    (parseFfmpegProgress sampleLine).bitrate = some "1000.0kbits/s" := by
  constructor
  · have e1 := searchLit_none timeLit matchTimeAt line.data h1
    have e2 := searchLit_none fpsLit matchNum line.data h2
    have e3 := searchLit_none speedLit matchSpeed line.data h3
    have e4 := searchLit_none bitrateLit matchBitrate line.data h4
    unfold parseFfmpegProgress timeField fpsField speedField bitrateField
    rw [e1, e2, e3, e4]
    rfl
  refine ⟨by decide, ?_, by decide, by decide⟩
  have hs : searchLit fpsLit matchNum sampleLine.data = some ['2','5','.','0'] := by
    decide
  show fpsField sampleLine.data = 25
  unfold fpsField
  rw [hs]
  dsimp only
  have hp : parseSigned ['2','5','.','0'] = some 25 := by
    unfold parseSigned
    rw [if_neg (by decide), if_neg (by decide)]
    unfold parseDecUnsigned
    rw [show splitCh '.' ['2','5','.','0'] = [['2','5'],['0']] from by decide]
    dsimp only
    rw [if_pos (by decide)]
    have d1 : digitsVal ['2','5'] = 25 := by decide
    have d2 : digitsVal ['0'] = 0 := by decide
    rw [d1, d2]
    norm_num
  rw [hp]
  rfl

/-- Witness for C7 at the token-free line "hello world". -/
theorem spec_C7_witness :
    parseFfmpegProgress "hello world" =
      { progress := 0, time := "00:00:00", fps := 0, speed := "0x",
        eta := "00:00:00", bitrate := none } ∧
    (parseFfmpegProgress sampleLine).time = "00:00:04.00" ∧
    (parseFfmpegProgress sampleLine).fps = 25 ∧
    (parseFfmpegProgress sampleLine).speed = "1.1x" ∧
    (parseFfmpegProgress sampleLine).bitrate = some "1000.0kbits/s" :=
  spec_C7 "hello world" (by decide) (by decide) (by decide) (by decide)

/- Values that can appear in a settings mapping. -/
inductive SettingVal where
  | intV : Int → SettingVal
  | strV : String → SettingVal
  | boolV : Bool → SettingVal
deriving DecidableEq

/- A settings dictionary: total lookup function, none meaning key absent. -/
def SettingsDict : Type := String → Option SettingVal

/- Model of base.copy() followed by base.update(over). -/
def mergeDicts (base over : SettingsDict) : SettingsDict :=
  fun k =>
    match over k with
    | some v => some v
    | none => base k

/- apply_preset_settings (unified_video_converter.py lines 104-120): when the
   requested preset is not "custom" and is configured, start from the preset's
   canned values, overwrite them with every explicitly supplied key except
   "preset", and pin the "preset" key; otherwise merge the supplied settings
   over the configured defaults. -/
def apply_preset_settings (presets : String → Option SettingsDict)
    (default_settings : SettingsDict) (settings : SettingsDict) : SettingsDict :=
  match (settings "preset").getD (SettingVal.strV "web-standard") with
  | SettingVal.strV p =>
    if p ≠ "custom" then
      match presets p with
      | some preset_settings =>
        fun k =>
          if k = "preset" then some (SettingVal.strV p)
          else
            match settings k with
            | some v => some v
            | none => preset_settings k
      | none => mergeDicts default_settings settings
    else mergeDicts default_settings settings
  | _ => mergeDicts default_settings settings

/- The caller-supplied settings JSON as read by the simple converter
   (simple_video_converter.py lines 276-283): each field .get with default. -/
structure SettingsInput where
  qualityO : Option Int
  bitrateO : Option Int
  twoPassO : Option Bool
  resolutionO : Option String
  frameRateO : Option Int
  presetO : Option String

/- The resolved settings record of the simple converter. -/
structure ConversionSettings where
  quality : Int
  bitrate : Int
  twoPass : Bool
  resolution : String
  frameRate : Int
  preset : String
deriving DecidableEq

/- conversion_settings as first built from the request (simple lines 276-283). -/
def baseSettings (s : SettingsInput) : ConversionSettings :=
  { quality := s.qualityO.getD 32
    bitrate := s.bitrateO.getD 1000
    twoPass := s.twoPassO.getD false
    resolution := s.resolutionO.getD "original"
    frameRate := s.frameRateO.getD 30
    preset := s.presetO.getD "web-standard" }

/- Preset application of the simple converter (simple lines 284-291): for a
   non-custom known preset the canned values are written with dict.update
   AFTER the explicit settings were read, overwriting them. -/
def simpleResolveSettings (s : SettingsInput) : ConversionSettings :=
  if (baseSettings s).preset ≠ "custom" then
    if (baseSettings s).preset = "web-standard" then
      { baseSettings s with quality := 32, bitrate := 2000, resolution := "original",
                            frameRate := 30, twoPass := false }
    else if (baseSettings s).preset = "high-quality" then
      { baseSettings s with quality := 18, bitrate := 4000, resolution := "1920x1080",
                            frameRate := 30, twoPass := true }
    else if (baseSettings s).preset = "max-compression" then
      { baseSettings s with quality := 45, bitrate := 1000, resolution := "854x480",
                            frameRate := 24, twoPass := true }
    else baseSettings s
  else baseSettings s

def c1Input : SettingsInput :=
  { qualityO := some 10, bitrateO := none, twoPassO := none,
    resolutionO := none, frameRateO := none, presetO := some "web-standard" }

/-- Counterexample to C1 as stated: in the simple converter's convert_video,
the caller explicitly supplies quality 10 together with the non-custom preset
"web-standard", yet the resolved quality is the preset's canned 32 — the
explicitly supplied field does NOT beat the preset value. -/
theorem spec_C1_counterexample :
    c1Input.qualityO = some 10 ∧ c1Input.presetO = some "web-standard" ∧
    ("web-standard" : String) ≠ "custom" ∧
    (simpleResolveSettings c1Input).quality = 32 ∧ ((32 : Int) ≠ 10) := by
  refine ⟨rfl, rfl, by decide, ?_, by decide⟩
  rfl

/-- Claim C1 amended: in the unified converter's apply_preset_settings a
non-custom configured preset is expanded first and every explicitly supplied
field (other than "preset") then overrides the canned value, deterministically
(last-write-wins); the simple converter's convert_video instead applies the
canned preset values last, overwriting explicitly supplied fields, as shown
for "web-standard". -/
theorem spec_C1_amended :
    (∀ (presets : String → Option SettingsDict)
       (default_settings settings : SettingsDict) (p : String) (pd : SettingsDict)
       (k : String),
       (settings "preset").getD (SettingVal.strV "web-standard") = SettingVal.strV p →
       p ≠ "custom" → presets p = some pd →
       apply_preset_settings presets default_settings settings k =
         (if k = "preset" then some (SettingVal.strV p)
          else match settings k with
               | some v => some v
               | none => pd k)) ∧
    (∀ s : SettingsInput, (baseSettings s).preset = "web-standard" →
       (simpleResolveSettings s).quality = 32 ∧
       (simpleResolveSettings s).bitrate = 2000 ∧
       (simpleResolveSettings s).resolution = "original" ∧
       (simpleResolveSettings s).frameRate = 30 ∧
       (simpleResolveSettings s).twoPass = false) := by
  constructor
  · intro presets default_settings settings p pd k hp hnc hin
    unfold apply_preset_settings
    rw [hp]
    dsimp only
    rw [if_pos hnc, hin]
  · intro s hp
    unfold simpleResolveSettings
    rw [hp]
    norm_num
    rw [if_neg (by decide : ¬("web-standard" : String) = "custom")]
    exact ⟨rfl, rfl, rfl, rfl, rfl⟩

/-- Witness for the amended C1 at a concrete preset table and settings dict. -/
theorem spec_C1_witness :
    apply_preset_settings
      (fun p => if p = "web-standard"
        then some (fun k => if k = "quality" then some (SettingVal.intV 32)
                            else if k = "bitrate" then some (SettingVal.intV 2000) else none)
        else none)
      (fun _ => none)
      (fun k => if k = "preset" then some (SettingVal.strV "web-standard")
                else if k = "quality" then some (SettingVal.intV 10) else none)
      "quality" =
      (if ("quality" : String) = "preset" then some (SettingVal.strV "web-standard")
       else match (fun k => if k = "preset" then some (SettingVal.strV "web-standard")
                            else if k = "quality" then some (SettingVal.intV 10) else none :
                   SettingsDict) "quality" with
            | some v => some v
            | none => (fun k => if k = "quality" then some (SettingVal.intV 32)
                                else if k = "bitrate" then some (SettingVal.intV 2000) else none) k) ∧
    (simpleResolveSettings c1Input).quality = 32 ∧
    (simpleResolveSettings c1Input).bitrate = 2000 ∧
    (simpleResolveSettings c1Input).resolution = "original" ∧
    (simpleResolveSettings c1Input).frameRate = 30 ∧
    (simpleResolveSettings c1Input).twoPass = false :=
  ⟨spec_C1_amended.1 _ _ _ "web-standard" _ "quality" rfl (by decide) rfl,
   spec_C1_amended.2 c1Input rfl⟩

/-- Claim C10: a preset name that is neither "custom" nor configured raises no
error and behaves exactly like "custom": the unified converter merges the
explicit settings over the configured defaults, and the simple converter keeps
the record built from explicit values and defaults untouched. -/
theorem spec_C10 :
    (∀ (presets : String → Option SettingsDict)
       (default_settings settings : SettingsDict) (p : String),
       (settings "preset").getD (SettingVal.strV "web-standard") = SettingVal.strV p →
       p ≠ "custom" → presets p = none →
       apply_preset_settings presets default_settings settings =
         mergeDicts default_settings settings) ∧
    (∀ s : SettingsInput, ∀ p : String, (baseSettings s).preset = p →
       p ≠ "custom" → p ≠ "web-standard" → p ≠ "high-quality" → p ≠ "max-compression" →
       simpleResolveSettings s = baseSettings s) := by
  constructor
  · intro presets default_settings settings p hp hnc hnone
    unfold apply_preset_settings
    rw [hp]
    dsimp only
    rw [if_pos hnc, hnone]
  · intro s p hp h1 h2 h3 h4
    unfold simpleResolveSettings
    rw [hp]
    rw [if_pos h1, if_neg h2, if_neg h3, if_neg h4]

/-- Witness for C10 at the unknown preset name "bogus". -/
theorem spec_C10_witness :
    apply_preset_settings (fun _ => none) (fun _ => none)
      (fun k => if k = "preset" then some (SettingVal.strV "bogus") else none) =
      mergeDicts (fun _ => none)
        (fun k => if k = "preset" then some (SettingVal.strV "bogus") else none) ∧
    simpleResolveSettings
      { qualityO := some 7, bitrateO := none, twoPassO := none,
        resolutionO := none, frameRateO := none, presetO := some "bogus" } =
      baseSettings
        { qualityO := some 7, bitrateO := none, twoPassO := none,
          resolutionO := none, frameRateO := none, presetO := some "bogus" } :=
  ⟨spec_C10.1 _ _ _ "bogus" rfl (by decide) rfl,
   spec_C10.2 _ "bogus" rfl (by decide) (by decide) (by decide) (by decide)⟩

/- Model of Python str() on a settings value. -/
def pyStr : SettingVal → String
  | SettingVal.intV n => toString n
  | SettingVal.strV s => s
  | SettingVal.boolV b => if b then "True" else "False"

/- The scale-filter arguments (unified lines 160-165): only for a string
   resolution different from "original" and inside the allow-list; the
   outer inequality guard is kept as in the source. -/
def resolutionArgs (settings : SettingsDict) : List String :=
  match (settings "resolution").getD (SettingVal.strV "original") with
  | SettingVal.strV r =>
    if r ≠ "original" then
      if r = "1920x1080" ∨ r = "1280x720" ∨ r = "854x480" then
        ["-vf", "scale=" ++ String.mk ((splitCh 'x' r.data).getD 0 []) ++ ":" ++
          String.mk ((splitCh 'x' r.data).getD 1 [])]
      else []
    else []
  | _ => []

/- The frame-rate arguments (unified lines 167-170): only when the value
   differs from the implicit default 30. -/
def frameRateArgs (settings : SettingsDict) : List String :=
  if (settings "frameRate").getD (SettingVal.intV 30) ≠ SettingVal.intV 30 then
    ["-r", pyStr ((settings "frameRate").getD (SettingVal.intV 30))]
  else []

/- Everything of the builder before the final extend. -/
def buildPrefix (inputPath : String) (settings : SettingsDict) : List String :=
  ["ffmpeg", "-i", inputPath, "-c:v", "libvpx-vp9",
   "-crf", pyStr ((settings "quality").getD (SettingVal.intV 32)),
   "-b:v", pyStr ((settings "bitrate").getD (SettingVal.intV 1000)) ++ "k",
   "-deadline", "good", "-cpu-used", "4", "-auto-alt-ref", "0"]
  ++ resolutionArgs settings ++ frameRateArgs settings

/- _build_ffmpeg_command (unified lines 147-173): the final extend appends
   the format flag, the overwrite flag and the output path. -/
def buildFfmpegCommand (inputPath outputPath : String) (settings : SettingsDict) :
    List String :=
  buildPrefix inputPath settings ++ ["-f", "webm", "-y", outputPath]

/- first_pass_cmd = base_cmd[:-2] + ['-pass', '1', '-f', 'null', '-']
   (unified line 215, simple line 133). -/
def firstPassCmd (base_cmd : List String) : List String :=
  base_cmd.take (base_cmd.length - 2) ++ ["-pass", "1", "-f", "null", "-"]

/- second_pass_cmd = base_cmd[:-2] + ['-pass', '2', output_path] where
   output_path = base_cmd[-1] (unified lines 255-256). -/
def secondPassCmd (base_cmd : List String) : List String :=
  base_cmd.take (base_cmd.length - 2) ++ ["-pass", "2", base_cmd.getLastD ""]

lemma append_two_take (p : List String) (a b : String) :
    (p ++ [a, b]).take ((p ++ [a, b]).length - 2) = p := by
  have h : (p ++ [a, b]).length - 2 = p.length := by simp
  rw [h, List.take_left]

lemma append_two_drop (p : List String) (a b : String) :
    (p ++ [a, b]).drop ((p ++ [a, b]).length - 2) = [a, b] := by
  have h : (p ++ [a, b]).length - 2 = p.length := by simp
  rw [h, List.drop_left]

lemma append_two_getLastD (p : List String) (a b : String) :
    (p ++ [a, b]).getLastD "" = b := by
  rw [show p ++ [a, b] = (p ++ [a]) ++ [b] by simp]
  rw [List.getLastD_eq_getLast?, List.getLast?_concat]
  rfl

def c5Settings : SettingsDict := fun _ => none

def c5Cmd : List String := buildFfmpegCommand "in.mp4" "out.webm" c5Settings

/-- Counterexample to C5 as stated: the second-to-last argument of the
builder's base command is the overwrite flag "-y", not the format flag, so
slicing off the final two arguments does not remove the format flag — the
pass-1 command still contains "webm". -/
theorem spec_C5_counterexample :
    List.getD c5Cmd (c5Cmd.length - 2) "" = "-y" ∧ (("-y" : String) ≠ "-f") ∧
    "webm" ∈ firstPassCmd c5Cmd ∧ "-f" ∈ firstPassCmd c5Cmd := by
  refine ⟨by decide, by decide, by decide, by decide⟩

/-- Claim C5 amended: in two-pass mode the builder's base command is reused
for both passes, with its final two arguments — the overwrite flag "-y" and
the output path — replaced by "-pass 1 -f null -" for pass 1 and by
"-pass 2 <output_path>" for pass 2; the "-f webm" format arguments of the
base command are retained in both pass commands. -/
theorem spec_C5_amended (inputPath outputPath : String) (settings : SettingsDict) :
    (buildFfmpegCommand inputPath outputPath settings).drop
        ((buildFfmpegCommand inputPath outputPath settings).length - 2) =
      ["-y", outputPath] ∧
    firstPassCmd (buildFfmpegCommand inputPath outputPath settings) =
      (buildPrefix inputPath settings ++ ["-f", "webm"]) ++
        ["-pass", "1", "-f", "null", "-"] ∧
    secondPassCmd (buildFfmpegCommand inputPath outputPath settings) =
      (buildPrefix inputPath settings ++ ["-f", "webm"]) ++
        ["-pass", "2", outputPath] ∧
    "webm" ∈ firstPassCmd (buildFfmpegCommand inputPath outputPath settings) ∧
    "webm" ∈ secondPassCmd (buildFfmpegCommand inputPath outputPath settings) := by
  have hre : buildFfmpegCommand inputPath outputPath settings =
      (buildPrefix inputPath settings ++ ["-f", "webm"]) ++ ["-y", outputPath] := by
    unfold buildFfmpegCommand
    simp
  have h1 : firstPassCmd (buildFfmpegCommand inputPath outputPath settings) =
      (buildPrefix inputPath settings ++ ["-f", "webm"]) ++
        ["-pass", "1", "-f", "null", "-"] := by
    unfold firstPassCmd
    rw [hre, append_two_take]
  have h2 : secondPassCmd (buildFfmpegCommand inputPath outputPath settings) =
      (buildPrefix inputPath settings ++ ["-f", "webm"]) ++
        ["-pass", "2", outputPath] := by
    unfold secondPassCmd
    rw [hre, append_two_take, append_two_getLastD]
  refine ⟨?_, h1, h2, ?_, ?_⟩
  · rw [hre, append_two_drop]
  · rw [h1]
    simp
  · rw [h2]
    simp

/- Flat JSON values appearing in progress-endpoint bodies. -/
inductive JVal where
  | jstr : String → JVal
  | jnum : ℚ → JVal
  | jnull : JVal
deriving DecidableEq

structure HttpResponse where
  status : Nat
  body : List (String × JVal)
deriving DecidableEq

/- The per-job progress record kept in conversion_progress (simple lines
   315-322, unified lines 349-356), with the optionally-added error key. -/
structure JobRecord where
  progress : ℚ
  status : String
  time : String
  fps : ℚ
  speed : String
  eta : String
  error : Option String
deriving DecidableEq

/- The terminal result record of the simple/unified converters
   (simple lines 339-345, unified lines 373-379). -/
structure UnifiedResult where
  status : String
  outputPath : String
  inputSize : Nat
  outputSize : Nat
  compressionRatio : ℚ
deriving DecidableEq

def jobRecordJson (r : JobRecord) : List (String × JVal) :=
  [("progress", JVal.jnum r.progress), ("status", JVal.jstr r.status),
   ("time", JVal.jstr r.time), ("fps", JVal.jnum r.fps),
   ("speed", JVal.jstr r.speed), ("eta", JVal.jstr r.eta)]
  ++ (match r.error with
      | some e => [("error", JVal.jstr e)]
      | none => [])

def unifiedResultJson (r : UnifiedResult) : List (String × JVal) :=
  [("status", JVal.jstr r.status), ("output_path", JVal.jstr r.outputPath),
   ("input_size", JVal.jnum ((r.inputSize : ℚ))),
   ("output_size", JVal.jnum ((r.outputSize : ℚ))),
   ("compression_ratio", JVal.jnum r.compressionRatio)]

/- Model of dict.update on association lists with unique keys. -/
def assocUpdate (base upd : List (String × JVal)) : List (String × JVal) :=
  base.map (fun kv =>
    match upd.lookup kv.1 with
    | some v => (kv.1, v)
    | none => kv)
  ++ upd.filter (fun kv => (base.lookup kv.1).isNone)

/- get_progress of simple_video_converter.py lines 377-388 (identical in the
   unified converter): 404 with an error body for an unknown id, otherwise a
   snapshot copy merged with the result record when completed. -/
def simpleGetProgress (conversion_progress : String → Option JobRecord)
    (conversion_results : String → Option UnifiedResult)
    (conversion_id : String) : HttpResponse :=
  match conversion_progress conversion_id with
  | none => { status := 404, body := [("error", JVal.jstr "Conversion not found")] }
  | some r =>
    if r.status = "completed" then
      match conversion_results conversion_id with
      | some res => { status := 200, body := assocUpdate (jobRecordJson r) (unifiedResultJson res) }
      | none => { status := 200, body := jobRecordJson r }
    else { status := 200, body := jobRecordJson r }

/- The legacy result record of video_converter.py (lines 211-216, updated at
   242-262): size/ratio keys only present once completed. -/
structure VideoResult where
  status : String
  inputPath : String
  outputPath : String
  error : Option String
  inputSize : Option Nat
  outputSize : Option Nat
  compressionRatio : Option ℚ
deriving DecidableEq

def optJNum (o : Option ℚ) : JVal :=
  match o with
  | some q => JVal.jnum q
  | none => JVal.jnull

def optJNat (o : Option Nat) : JVal :=
  match o with
  | some n => JVal.jnum ((n : ℚ))
  | none => JVal.jnull

/- get_progress of video_converter.py lines 282-296: always HTTP 200, with
   progress defaulting to 0 and status defaulting to "unknown" for an id that
   was never submitted. -/
def videoGetProgress (conversion_progress : String → Option ℚ)
    (conversion_results : String → Option VideoResult)
    (conversion_id : String) : HttpResponse :=
  { status := 200
    body :=
      [("conversion_id", JVal.jstr conversion_id),
       ("progress", JVal.jnum ((conversion_progress conversion_id).getD 0)),
       ("status", JVal.jstr (match conversion_results conversion_id with
                             | some r => r.status
                             | none => "unknown")),
       ("error", (match conversion_results conversion_id with
                  | some r => (match r.error with
                               | some e => JVal.jstr e
                               | none => JVal.jnull)
                  | none => JVal.jnull)),
       ("compression_ratio", (match conversion_results conversion_id with
                              | some r => optJNum r.compressionRatio
                              | none => JVal.jnull)),
       ("input_size", (match conversion_results conversion_id with
                       | some r => optJNat r.inputSize
                       | none => JVal.jnull)),
       ("output_size", (match conversion_results conversion_id with
                        | some r => optJNat r.outputSize
                        | none => JVal.jnull))] }

/-- Counterexample to C3 as stated: video_converter.py's progress endpoint
answers an id that was never submitted with HTTP 200 and status "unknown",
not with 404. -/
theorem spec_C3_counterexample :
    (videoGetProgress (fun _ => none) (fun _ => none) "never-submitted").status = 200 ∧
    (videoGetProgress (fun _ => none) (fun _ => none) "never-submitted").status ≠ 404 ∧
    (videoGetProgress (fun _ => none) (fun _ => none) "never-submitted").body.lookup "status" =
      some (JVal.jstr "unknown") := by
  refine ⟨rfl, by decide, rfl⟩

/-- Claim C3 amended: for every conversion id that was never submitted, the
simple (and unified) converter's GET /api/progress/<id> returns HTTP 404 with
a JSON body containing an error field; video_converter.py's handler instead
returns HTTP 200 with status "unknown" and a null error field for such ids. -/
theorem spec_C3_amended :
    (∀ (conversion_progress : String → Option JobRecord)
       (conversion_results : String → Option UnifiedResult) (cid : String),
       conversion_progress cid = none →
       simpleGetProgress conversion_progress conversion_results cid =
         { status := 404, body := [("error", JVal.jstr "Conversion not found")] }) ∧
    (∀ (vprog : String → Option ℚ) (vres : String → Option VideoResult) (cid : String),
       vprog cid = none → vres cid = none →
       (videoGetProgress vprog vres cid).status = 200 ∧
       (videoGetProgress vprog vres cid).body.lookup "status" =
         some (JVal.jstr "unknown") ∧
       (videoGetProgress vprog vres cid).body.lookup "error" = some JVal.jnull) := by
  constructor
  · intro conversion_progress conversion_results cid h
    unfold simpleGetProgress
    rw [h]
  · intro vprog vres cid hp hr
    unfold videoGetProgress
    rw [hp, hr]
    refine ⟨rfl, ?_, ?_⟩
    · rfl
    · rfl

/-- Witness for the amended C3 on empty registries and the id "ghost". -/
theorem spec_C3_witness :
    simpleGetProgress (fun _ => none) (fun _ => none) "ghost" =
      { status := 404, body := [("error", JVal.jstr "Conversion not found")] } ∧
    (videoGetProgress (fun _ => none) (fun _ => none) "ghost").status = 200 ∧
    (videoGetProgress (fun _ => none) (fun _ => none) "ghost").body.lookup "status" =
      some (JVal.jstr "unknown") ∧
    (videoGetProgress (fun _ => none) (fun _ => none) "ghost").body.lookup "error" =
      some JVal.jnull :=
  ⟨spec_C3_amended.1 (fun _ => none) (fun _ => none) "ghost" rfl,
   spec_C3_amended.2 (fun _ => none) (fun _ => none) "ghost" rfl rfl⟩

/- Outcomes of the steps inside the unified background worker's try block
   (unified lines 359-397): each fallible step either yields a value or
   raises with a message. -/
structure WorkerEnv where
  convertResult : Except String Bool
  outputExists : Bool
  inputSize : Except String Nat
  outputSize : Except String Nat

inductive WorkerOutcome where
  | completed : Nat → Nat → ℚ → WorkerOutcome
  | failed : String → WorkerOutcome

/- The try-block of conversion_worker (unified lines 360-390): convert, check
   the output file, stat the sizes, compute the compression ratio (a zero
   input size raises ZeroDivisionError). -/
def workerBody (env : WorkerEnv) : Except String WorkerOutcome :=
  match env.convertResult with
  | Except.error e => Except.error e
  | Except.ok success =>
    if success && env.outputExists then
      match env.inputSize with
      | Except.error e => Except.error e
      | Except.ok isz =>
        match env.outputSize with
        | Except.error e => Except.error e
        | Except.ok osz =>
          if isz = 0 then Except.error "division by zero"
          else Except.ok (WorkerOutcome.completed isz osz ((1 - (osz : ℚ) / (isz : ℚ)) * 100))
    else
      Except.ok (WorkerOutcome.failed
        (if !success then "FFmpeg conversion process failed"
         else "Conversion failed - output file not created"))

/- conversion_worker (unified lines 359-397): the final state of the job's
   progress record and the optional result record. On success the record is
   marked completed with progress 100; on a failed conversion or on any
   caught exception the record is marked error with progress 0 and the
   message; the worker itself is total, no exception escapes it. -/
def conversionWorker (env : WorkerEnv) (outputPath : String) (current : JobRecord) :
    JobRecord × Option UnifiedResult :=
  match workerBody env with
  | Except.ok (WorkerOutcome.completed isz osz ratio) =>
    ({ current with status := "completed", progress := 100 },
     some { status := "completed", outputPath := outputPath,
            inputSize := isz, outputSize := osz, compressionRatio := ratio })
  | Except.ok (WorkerOutcome.failed msg) =>
    ({ current with status := "error", progress := 0, error := some msg }, none)
  | Except.error e =>
    ({ current with
        status := "error", progress := 0,
        error := some ("Conversion error: " ++ e) }, none)

/- Python round() to the nearest integer, ties to even. -/
def roundHalfEven (y : ℚ) : ℤ :=
  if y - (Int.floor y : ℚ) < 1 / 2 then Int.floor y
  else if (1 : ℚ) / 2 < y - (Int.floor y : ℚ) then Int.floor y + 1
  else if Int.floor y % 2 = 0 then Int.floor y else Int.floor y + 1

/- Python round(x, 2). -/
def pyRound2 (x : ℚ) : ℚ := ((roundHalfEven (x * 100) : ℚ)) / 100

/- The try-block of convert_thread (video_converter.py lines 222-268):
   convert with fallback (modelled as one fallible outcome), then on success
   stat sizes and compute the rounded compression ratio. -/
def convertThreadBody (outcome : Except String Bool)
    (sizes : Except String (Nat × Nat)) : Except String (Option (Nat × Nat × ℚ)) :=
  match outcome with
  | Except.error e => Except.error e
  | Except.ok success =>
    if success then
      match sizes with
      | Except.error e => Except.error e
      | Except.ok (isz, osz) =>
        if isz = 0 then Except.error "division by zero"
        else Except.ok (some (isz, osz, pyRound2 ((1 - (osz : ℚ) / (isz : ℚ)) * 100)))
    else Except.ok none

/- convert_thread (video_converter.py lines 222-268): final progress value and
   result record. The except branch updates only the result record; the
   progress value is left untouched. -/
def convertThread (outcome : Except String Bool) (sizes : Except String (Nat × Nat))
    (progress : ℚ) (res : VideoResult) : ℚ × VideoResult :=
  match convertThreadBody outcome sizes with
  | Except.ok (some (isz, osz, ratio)) =>
    (progress, { res with status := "completed", inputSize := some isz,
                          outputSize := some osz, compressionRatio := some ratio })
  | Except.ok none =>
    (progress, { res with status := "error", error := some "Conversion failed" })
  | Except.error e =>
    (progress, { res with status := "error", error := some e })

def vresInit : VideoResult :=
  { status := "processing", inputPath := "in.mp4", outputPath := "out.webm",
    error := none, inputSize := none, outputSize := none, compressionRatio := none }

/-- Counterexample to C8 as stated: when the conversion call inside
video_converter.py's convert_thread raises with message "boom" while the
job's progress registry reads 37, the worker writes status "error" with the
message but leaves the progress at 37 instead of setting it to 0. -/
theorem spec_C8_counterexample :
    (convertThread (Except.error "boom") (Except.ok (1, 1)) 37 vresInit).1 = 37 ∧
    ((37 : ℚ) ≠ 0) ∧
    (convertThread (Except.error "boom") (Except.ok (1, 1)) 37 vresInit).2.status = "error" ∧
    (convertThread (Except.error "boom") (Except.ok (1, 1)) 37 vresInit).2.error = some "boom" := by
  refine ⟨rfl, by norm_num, rfl, rfl⟩

/-- Claim C8 amended: both background workers catch every exception raised by
any step and convert it into job-record state without propagating (the
modelled workers are total functions). The unified converter's
conversion_worker writes status "error" with the exception's message and
resets progress to 0; video_converter.py's convert_thread writes status
"error" with the message onto the result record but leaves the job's progress
value unchanged. -/
theorem spec_C8_amended :
    (∀ (env : WorkerEnv) (op : String) (current : JobRecord) (e : String),
       workerBody env = Except.error e →
       conversionWorker env op current =
         ({ current with
             status := "error", progress := 0,
             error := some ("Conversion error: " ++ e) }, none)) ∧
    (∀ (outcome : Except String Bool) (sizes : Except String (Nat × Nat))
       (p : ℚ) (res : VideoResult) (e : String),
       convertThreadBody outcome sizes = Except.error e →
       convertThread outcome sizes p res =
         (p, { res with status := "error", error := some e })) := by
  constructor
  · intro env op current e h
    unfold conversionWorker
    rw [h]
  · intro outcome sizes p res e h
    unfold convertThread
    rw [h]

/-- Witness for the amended C8: a worker environment whose conversion call
raises "disk gone". -/
theorem spec_C8_witness :
    conversionWorker
      { convertResult := Except.error "disk gone", outputExists := true,
        inputSize := Except.ok 10, outputSize := Except.ok 4 }
      "out.webm"
      { progress := 42, status := "processing", time := "00:00:05", fps := 25,
        speed := "1x", eta := "00:00:00", error := none } =
      ({ progress := 0, status := "error", time := "00:00:05", fps := 25,
         speed := "1x", eta := "00:00:00",
         error := some ("Conversion error: " ++ "disk gone") }, none) ∧
    convertThread (Except.error "disk gone") (Except.ok (10, 4)) 42 vresInit =
      (42, { vresInit with status := "error", error := some "disk gone" }) :=
  ⟨spec_C8_amended.1 _ "out.webm" _ "disk gone" rfl,
   spec_C8_amended.2 _ _ 42 vresInit "disk gone" rfl⟩
